import Mathlib

/-!
Verification of the live bidirectional audio session manager of the
CryptoVid AI Studio repository (the `LiveAnalyst` component and its audio
codec helpers in `services/geminiService.ts`).

The embedding below translates, function by function:
* `decode` / `encode` (base64 text codec over raw PCM bytes; the browser
  primitives `atob`/`btoa` they wrap are modelled as RFC 4648 base64 over
  byte lists, with symbols represented by their 6-bit values and the
  padding character `'='` by the value 64);
* `decodeAudioData` (PCM16 → float) and the `onaudioprocess` float → PCM16
  conversion (`int16[i] = inputData[i] * 32768`, which per the JS `ToInt16`
  conversion truncates toward zero and wraps modulo 2^16);
* the playback scheduling performed in the `onmessage` callback
  (`nextStartTime = max(nextStartTime, currentTime)`, `source.start`,
  `nextStartTime += duration`);
* the `onmessage` event handler itself (transcription fragments, turn
  completion, inbound audio, interruption — in that source order);
* `stopConversation` and `startConversation` of the session lifecycle.

Floats are modelled as rationals; the mutable refs of the component are
gathered into an explicit `LiveState` record; teardown side effects are
recorded as an action trace so that "which resources were released" is
observable.
-/

namespace LiveAudio

/-! ### Audio codec utilities -/

/-- Model of `btoa` composed with the byte-to-binary-string loop of
`encode` (geminiService.ts lines 269-276): standard base64. Input: byte
values; output: 6-bit symbol values, with 64 standing for `'='`. -/
def b64encode : List Nat → List Nat
  | [] => []
  | [a] => [a / 4, a % 4 * 16, 64, 64]
  | [a, b] => [a / 4, a % 4 * 16 + b / 16, b % 16 * 4, 64]
  | a :: b :: c :: rest =>
      (a / 4) :: (a % 4 * 16 + b / 16) :: (b % 16 * 4 + c / 64) :: (c % 64) :: b64encode rest

/-- Model of `atob` composed with the `charCodeAt` loop of `decode`
(geminiService.ts lines 245-253). `none` models the exception `atob`
throws on malformed input (wrong length, invalid symbol, or misplaced
padding). -/
def b64decode : List Nat → Option (List Nat)
  | [] => some []
  | w :: x :: y :: z :: rest =>
      if w < 64 ∧ x < 64 then
        if y = 64 then
          if z = 64 ∧ rest = [] then some [w * 4 + x / 16] else none
        else if y < 64 then
          if z = 64 then
            if rest = [] then some [w * 4 + x / 16, x % 16 * 16 + y / 4] else none
          else if z < 64 then
            (b64decode rest).map fun r =>
              (w * 4 + x / 16) :: (x % 16 * 16 + y / 4) :: (y % 4 * 64 + z) :: r
          else none
        else none
      else none
  | _ => none

/-- Truncation toward zero of a rational, as the JS abstract operation
`ToIntegerOrInfinity` performs on a finite float. -/
def truncQ (q : ℚ) : ℤ :=
  if 0 ≤ q then ⌊q⌋ else ⌈q⌉

/-- Reduction of an integer into the signed 16-bit range by wrapping
modulo 2^16, as the JS `ToInt16` conversion used by `Int16Array` element
assignment. -/
def wrap16 (n : ℤ) : ℤ :=
  if n % 65536 < 32768 then n % 65536 else n % 65536 - 65536

/-- The float → PCM16 conversion of `onaudioprocess`
(geminiService.ts line 503): `int16[i] = inputData[i] * 32768`. -/
def floatToPcm16 (x : ℚ) : ℤ :=
  wrap16 (truncQ (x * 32768))

/-- The PCM16 → float conversion of `decodeAudioData`
(geminiService.ts line 263): `dataInt16[i] / 32768.0`. -/
def pcm16ToFloat (n : ℤ) : ℚ :=
  (n : ℚ) / 32768

/-! ### Playback scheduler -/

/-- Clock advance of one enqueue (geminiService.ts lines 535, 542):
`nextStartTime = max(nextStartTime, currentTime)` followed by
`nextStartTime += duration`. -/
def enqueueClock (clock t d : ℚ) : ℚ :=
  max clock t + d

/-- Iterated scheduling of lines 535-543: input is the list of
(device time at enqueue, buffer duration) pairs in arrival order; output
is the list of (scheduled start time, duration) pairs. `source.start` is
called with the pre-advance value of `nextStartTime`. -/
def schedule : ℚ → List (ℚ × ℚ) → List (ℚ × ℚ)
  | _, [] => []
  | clock, (t, d) :: rest => (max clock t, d) :: schedule (enqueueClock clock t d) rest

/-- The start times predicted by the gapless-playback property: the first
buffer starts at `s`, and each later buffer starts one duration after the
previous one. -/
def gaplessStarts : ℚ → List ℚ → List ℚ
  | _, [] => []
  | s, d :: rest => s :: gaplessStarts (s + d) rest

/-- No-underrun condition on the tail of an enqueue sequence: at each
enqueue the device clock has not overtaken the scheduled clock. -/
def noUnderrun : ℚ → List (ℚ × ℚ) → Bool
  | _, [] => true
  | clock, (t, d) :: rest => (decide (t ≤ clock)) && noUnderrun (clock + d) rest

/-! ### Session state -/

/-- Lifecycle of one of the two `AudioContext`s: never created, created
and usable, or closed (`close()` leaves the ref assigned, state
`'closed'`). -/
inductive CtxSt
  | absent
  | opened
  | closed
deriving DecidableEq, Repr

/-- The mutable refs and React state of the `LiveAnalyst` component
(geminiService.ts lines 432-443), plus the two closure-local
transcription fragment buffers of `startConversation` (lines 488-489).
`sources` holds the ids of the `AudioBufferSourceNode`s currently
registered in `sourcesRef`. -/
structure LiveState where
  session : Bool
  processor : Bool
  mediaSource : Bool
  micStream : Bool
  inputCtx : CtxSt
  outputCtx : CtxSt
  sources : List Nat
  nextStartTime : ℚ
  isLive : Bool
  isConnecting : Bool
  transcriptions : List (String × String)
  curInput : String
  curOutput : String
deriving DecidableEq, Repr

/-- The component before any conversation was started: every ref null,
no contexts, empty transcript. -/
def LiveState.idle : LiveState :=
  { session := false, processor := false, mediaSource := false, micStream := false,
    inputCtx := CtxSt.absent, outputCtx := CtxSt.absent, sources := [], nextStartTime := 0,
    isLive := false, isConnecting := false, transcriptions := [], curInput := "",
    curOutput := "" }

/-- A release side effect performed during teardown, in the order the
statements occur in `stopConversation` (geminiService.ts lines 445-474). -/
inductive TeardownAct
  | closeSession
  | disconnectProcessor
  | disconnectMediaSource
  | stopMicTracks
  | closeInputCtx
  | closeOutputCtx
  | stopSource (id : Nat)
deriving DecidableEq, Repr

/-- Effect of `AudioContext.close()` on a context ref: the ref keeps its
value but the context state becomes `'closed'`. -/
def closeCtx : CtxSt → CtxSt
  | CtxSt.absent => CtxSt.absent
  | _ => CtxSt.closed

/-- The barge-in flush (geminiService.ts lines 547-549 and 469-471):
stop every registered source, clear the set, reset the clock to 0.
Returns the new state together with the ids of the sources that were
explicitly stopped. -/
def flush (s : LiveState) : LiveState × List Nat :=
  ({ s with sources := [], nextStartTime := 0 }, s.sources)

/-- `stopConversation` (geminiService.ts lines 445-474). Every block is
guarded on its ref (or, for the contexts, on the state not being
`'closed'`), so the returned action trace records exactly the release
operations that were actually performed, in source order. -/
def stopConversation (s : LiveState) : LiveState × List TeardownAct :=
  ({ s with
      session := false
      processor := false
      mediaSource := false
      micStream := false
      inputCtx := closeCtx s.inputCtx
      outputCtx := closeCtx s.outputCtx
      sources := []
      nextStartTime := 0
      isLive := false
      isConnecting := false },
    (if s.session then [TeardownAct.closeSession] else [])
      ++ (if s.processor then [TeardownAct.disconnectProcessor] else [])
      ++ (if s.mediaSource then [TeardownAct.disconnectMediaSource] else [])
      ++ (if s.micStream then [TeardownAct.stopMicTracks] else [])
      ++ (if s.inputCtx = CtxSt.opened then [TeardownAct.closeInputCtx] else [])
      ++ (if s.outputCtx = CtxSt.opened then [TeardownAct.closeOutputCtx] else [])
      ++ s.sources.map TeardownAct.stopSource)

/-- Which acquisitions succeed during one run of `startConversation`:
the 16 kHz capture context (line 483), the 24 kHz playback context
(line 484), `getUserMedia` (line 486), and `ai.live.connect` together
with the awaited session promise (lines 491-569). -/
structure StartEnv where
  inputCtxOk : Bool
  outputCtxOk : Bool
  micOk : Bool
  connectOk : Bool
deriving DecidableEq, Repr

/-- `startConversation` (geminiService.ts lines 476-576). Returns the
resulting state, the number of error reports shown to the user (the
`alert` in the catch block), and the teardown actions performed by the
`stopConversation` call in the catch block (empty on success).
Acquisitions happen in source order: input context, output context,
microphone stream, transport session; the first failure jumps to the
catch block, which reports once and calls `stopConversation`. On success
the `onopen` callback creates and connects the media-stream source and
the script processor and flips the component to live. The transcript is
cleared at the top of the function (line 478), and the fragment buffers
are fresh per attempt (lines 488-489). -/
def startConversation (s0 : LiveState) (env : StartEnv) : LiveState × Nat × List TeardownAct :=
  let s := { s0 with
             isConnecting := true
             transcriptions := ([] : List (String × String))
             curInput := ""
             curOutput := "" }
  if env.inputCtxOk then
    let s := { s with inputCtx := CtxSt.opened }
    if env.outputCtxOk then
      let s := { s with outputCtx := CtxSt.opened }
      if env.micOk then
        let s := { s with micStream := true }
        if env.connectOk then
          ({ s with
             mediaSource := true
             processor := true
             session := true
             isConnecting := false
             isLive := true }, 0, [])
        else
          let r := stopConversation s
          (r.1, 1, r.2)
      else
        let r := stopConversation s
        (r.1, 1, r.2)
    else
      let r := stopConversation s
      (r.1, 1, r.2)
  else
    let r := stopConversation s
    (r.1, 1, r.2)

/-- Observable "no partially-started state": no ref held, no usable
context, no scheduled source, UI shows not connected. -/
def isIdle (s : LiveState) : Bool :=
  !s.session && !s.processor && !s.mediaSource && !s.micStream
    && !(s.inputCtx = CtxSt.opened) && !(s.outputCtx = CtxSt.opened)
    && s.sources.isEmpty && !s.isLive && !s.isConnecting

/-! ### The onmessage event handler -/

/-- One `LiveServerMessage` as read by the `onmessage` callback
(geminiService.ts lines 518-551): optional output/input transcription
fragments, the turn-complete marker, the optional inbound base64 audio
payload (as base64 symbol values), and the interruption marker. -/
structure ServerMsg where
  outputTranscription : Option String
  inputTranscription : Option String
  turnComplete : Bool
  audioData : Option (List Nat)
  interrupted : Bool
deriving DecidableEq, Repr

/-- The transcription part of `onmessage` (lines 519-531): append the
output fragment if present, then the input fragment if present; on
`turnComplete` push the accumulated pair onto the transcript and clear
both buffers. -/
def applyTranscript (s : LiveState) (m : ServerMsg) : LiveState :=
  let s1 := match m.outputTranscription with
    | some f => { s with curOutput := s.curOutput ++ f }
    | none => s
  let s2 := match m.inputTranscription with
    | some f => { s1 with curInput := s1.curInput ++ f }
    | none => s1
  if m.turnComplete then
    { s2 with
      transcriptions := s2.transcriptions ++ [(s2.curInput, s2.curOutput)]
      curInput := ""
      curOutput := "" }
  else s2

/-- The interruption part of `onmessage` (lines 546-550), reached only
when no exception was thrown earlier in the handler. -/
def interruptedStep (s : LiveState) (m : ServerMsg) : LiveState × List Nat × Bool :=
  if m.interrupted then ((flush s).1, (flush s).2, false) else (s, [], false)

/-- Line 535: `nextStartTime = Math.max(nextStartTime, currentTime)`,
performed as soon as a message carries audio — before the decode. -/
def bumpClock (s : LiveState) (t : ℚ) : LiveState :=
  { s with nextStartTime := max s.nextStartTime t }

/-- Duration in seconds of a decoded payload: `frameCount / sampleRate`
with `frameCount = dataInt16.length / numChannels` for one channel at
24000 Hz (lines 255-258, 536). -/
def bytesDuration (bytes : List Nat) : ℚ :=
  ((bytes.length / 2 : ℕ) : ℚ) / 24000

/-- Lines 537-543: schedule the decoded buffer at the current
`nextStartTime`, advance the clock by its duration, and register the
source in the active set. -/
def addSource (s : LiveState) (bytes : List Nat) (newId : Nat) : LiveState :=
  { s with
    sources := s.sources ++ [newId]
    nextStartTime := s.nextStartTime + bytesDuration bytes }

/-- The full `onmessage` callback (lines 518-551), at device time `t`,
creating source id `newId` if audio is scheduled. Result: new state, ids
of sources stopped by the interruption branch, and whether the handler
threw (an exception aborts the rest of the handler but does not tear the
session down; the decode of a malformed payload throws in `atob`, and
`new Int16Array(buffer)` throws on an odd byte length). -/
def handleMessage (s0 : LiveState) (m : ServerMsg) (t : ℚ) (newId : Nat) :
    LiveState × List Nat × Bool :=
  match m.audioData with
  | some payload =>
      if (applyTranscript s0 m).outputCtx ≠ CtxSt.absent then
        match b64decode payload with
        | none => (bumpClock (applyTranscript s0 m) t, [], true)
        | some bytes =>
            if bytes.length % 2 ≠ 0 then (bumpClock (applyTranscript s0 m) t, [], true)
            else interruptedStep (addSource (bumpClock (applyTranscript s0 m) t) bytes newId) m
      else interruptedStep (applyTranscript s0 m) m
  | none => interruptedStep (applyTranscript s0 m) m

/-! ### Concrete states and messages used as test inputs -/

/-- A live session with one scheduled source, a nonempty transcript and
nonempty fragment buffers. -/
def exLiveState : LiveState :=
  { session := true, processor := true, mediaSource := true, micStream := true,
    inputCtx := CtxSt.opened, outputCtx := CtxSt.opened, sources := [7], nextStartTime := 5,
    isLive := true, isConnecting := false, transcriptions := [("hi", "hello")],
    curInput := "a", curOutput := "b" }

/-- A message carrying only the interruption marker. -/
def interruptOnlyMsg : ServerMsg :=
  { outputTranscription := none, inputTranscription := none, turnComplete := false,
    audioData := none, interrupted := true }

/-- A turn-completion message that also carries one fragment of each
kind. -/
def msgTurn : ServerMsg :=
  { outputTranscription := some "M", inputTranscription := some "U", turnComplete := true,
    audioData := none, interrupted := false }

/-- A message whose audio payload is malformed base64 (length 1), also
carrying an interruption marker that the thrown exception will skip. -/
def msgBadAudio : ServerMsg :=
  { outputTranscription := none, inputTranscription := none, turnComplete := false,
    audioData := some [1], interrupted := true }

/-- Startup environment where creating the 16 kHz input context throws. -/
def envFail1 : StartEnv := { inputCtxOk := false, outputCtxOk := true, micOk := true, connectOk := true }

/-- Startup environment where creating the 24 kHz output context throws. -/
def envFail2 : StartEnv := { inputCtxOk := true, outputCtxOk := false, micOk := true, connectOk := true }

/-- Startup environment where `getUserMedia` is refused. -/
def envFail3 : StartEnv := { inputCtxOk := true, outputCtxOk := true, micOk := false, connectOk := true }

/-- Startup environment where the transport session fails to open. -/
def envFail4 : StartEnv := { inputCtxOk := true, outputCtxOk := true, micOk := true, connectOk := false }

end LiveAudio

namespace LiveAudio

/-! ### Codec theorems -/

theorem b64_round : ∀ (bs : List Nat), (∀ x ∈ bs, x < 256) →
    b64decode (b64encode bs) = some bs
  | [], _ => rfl
  | [a], h => by
      have ha : a < 256 := h a (by simp)
      have h1 : a / 4 < 64 := by omega
      have h2 : a % 4 * 16 < 64 := by omega
      simp [b64encode, b64decode, h1, h2]
      omega
  | [a, b], h => by
      have ha : a < 256 := h a (by simp)
      have hb : b < 256 := h b (by simp)
      have h1 : a / 4 < 64 := by omega
      have h2 : a % 4 * 16 + b / 16 < 64 := by omega
      have h3 : ¬(b % 16 * 4 = 64) := by omega
      have h4 : b % 16 * 4 < 64 := by omega
      simp [b64encode, b64decode, h1, h2, h3, h4]
      omega
  | [a, b, c], h => by
      have ha : a < 256 := h a (by simp)
      have hb : b < 256 := h b (by simp)
      have hc : c < 256 := h c (by simp)
      have h1 : a / 4 < 64 := by omega
      have h2 : a % 4 * 16 + b / 16 < 64 := by omega
      have h3 : ¬(b % 16 * 4 + c / 64 = 64) := by omega
      have h4 : b % 16 * 4 + c / 64 < 64 := by omega
      have h5 : ¬(c % 64 = 64) := by omega
      have h6 : c % 64 < 64 := by omega
      simp [b64encode, b64decode, h1, h2, h3, h4, h5, h6]
      omega
  | a :: b :: c :: d :: rest, h => by
      have ha : a < 256 := h a (by simp)
      have hb : b < 256 := h b (by simp)
      have hc : c < 256 := h c (by simp)
      have ih := b64_round (d :: rest) (fun x hx => h x (by simp [hx]))
      have h1 : a / 4 < 64 := by omega
      have h2 : a % 4 * 16 + b / 16 < 64 := by omega
      have h3 : ¬(b % 16 * 4 + c / 64 = 64) := by omega
      have h4 : b % 16 * 4 + c / 64 < 64 := by omega
      have h5 : ¬(c % 64 = 64) := by omega
      have h6 : c % 64 < 64 := by omega
      simp [b64encode, b64decode, h1, h2, h3, h4, h5, h6, ih]
      omega

theorem wrap16_id (n : ℤ) (hlo : -32768 ≤ n) (hhi : n ≤ 32767) : wrap16 n = n := by
  unfold wrap16
  split <;> omega

theorem wrap16_bounds (n : ℤ) : -32768 ≤ wrap16 n ∧ wrap16 n ≤ 32767 := by
  unfold wrap16
  constructor <;> split <;> omega

theorem wrap16_emod (n : ℤ) : wrap16 n % 65536 = n % 65536 := by
  unfold wrap16
  split <;> omega

theorem pcm_round (x : ℚ) (hlo : -1 ≤ x) (hhi : x < 1) :
    |x - pcm16ToFloat (floatToPcm16 x)| ≤ 1 / 32768 := by
  have hql : (-32768 : ℚ) ≤ x * 32768 := by linarith
  have hqu : x * 32768 < 32768 := by linarith
  by_cases h0 : (0 : ℚ) ≤ x * 32768
  · have ht : truncQ (x * 32768) = ⌊x * 32768⌋ := if_pos h0
    have hfl : ((⌊x * 32768⌋ : ℤ) : ℚ) ≤ x * 32768 := Int.floor_le _
    have hfl2 : x * 32768 - 1 < ((⌊x * 32768⌋ : ℤ) : ℚ) := Int.sub_one_lt_floor _
    have hb1 : (0 : ℤ) ≤ ⌊x * 32768⌋ := Int.floor_nonneg.mpr h0
    have hb2 : ⌊x * 32768⌋ ≤ 32767 := by
      have hc : ((⌊x * 32768⌋ : ℤ) : ℚ) < ((32768 : ℤ) : ℚ) := by push_cast; linarith
      have := Int.cast_lt.mp hc
      omega
    have hw : floatToPcm16 x = ⌊x * 32768⌋ := by
      unfold floatToPcm16
      rw [ht]
      exact wrap16_id _ (by omega) hb2
    rw [hw]
    unfold pcm16ToFloat
    rw [abs_le]
    constructor <;> linarith
  · have ht : truncQ (x * 32768) = ⌈x * 32768⌉ := if_neg h0
    have hc1 : x * 32768 ≤ ((⌈x * 32768⌉ : ℤ) : ℚ) := Int.le_ceil _
    have hc2 : ((⌈x * 32768⌉ : ℤ) : ℚ) < x * 32768 + 1 := Int.ceil_lt_add_one _
    have hb1 : ⌈x * 32768⌉ ≤ 0 := Int.ceil_le.mpr (by push_cast; linarith [le_of_not_le h0])
    have hb2 : -32768 ≤ ⌈x * 32768⌉ := by
      have hc : ((-32768 : ℤ) : ℚ) ≤ ((⌈x * 32768⌉ : ℤ) : ℚ) := by push_cast; linarith
      exact Int.cast_le.mp hc
    have hw : floatToPcm16 x = ⌈x * 32768⌉ := by
      unfold floatToPcm16
      rw [ht]
      exact wrap16_id _ hb2 (by omega)
    rw [hw]
    unfold pcm16ToFloat
    rw [abs_le]
    constructor <;> linarith

/-- C6 (amended). The byte-sequence half of the claim holds exactly as
stated: decoding the base64 encoding of any byte sequence returns the
original bytes. The float half holds on `[-1, 1)`: for every sample `x`
with `-1 ≤ x < 1`, converting to PCM16 and back reproduces `x` within one
quantization step `1/32768`. (At `x = 1` exactly — included in the
claim's closed interval — the conversion wraps to `-32768` and the
round-trip error is 2; see the counterexample.) -/
theorem C6_codec_round_trip_amended :
    (∀ bs : List Nat, (∀ x ∈ bs, x < 256) → b64decode (b64encode bs) = some bs)
    ∧ (∀ x : ℚ, -1 ≤ x → x < 1 → |x - pcm16ToFloat (floatToPcm16 x)| ≤ 1 / 32768) :=
  ⟨b64_round, pcm_round⟩

/-- C6 witness: the round trips evaluated at the byte sequence
`[0, 1, 255]` and at the sample `1/2`. -/
theorem C6_codec_round_trip_witness :
    ((∀ x ∈ [0, 1, 255], x < 256) ∧ b64decode (b64encode [0, 1, 255]) = some [0, 1, 255])
    ∧ ((-1 : ℚ) ≤ 1 / 2 ∧ (1 / 2 : ℚ) < 1
        ∧ |(1 / 2 : ℚ) - pcm16ToFloat (floatToPcm16 (1 / 2))| ≤ 1 / 32768) :=
  ⟨⟨by decide, C6_codec_round_trip_amended.1 [0, 1, 255] (by decide)⟩,
   ⟨by norm_num, by norm_num,
    C6_codec_round_trip_amended.2 (1 / 2) (by norm_num) (by norm_num)⟩⟩

/-- C6 counterexample: the claim quantifies over the closed interval
`[-1, 1]`, but at `x = 1` the conversion `int16[i] = x * 32768` wraps
32768 to -32768, and the round trip returns -1: an error of 2, far more
than one quantization step. -/
theorem C6_counterexample :
    ¬ (|(1 : ℚ) - pcm16ToFloat (floatToPcm16 1)| ≤ 1 / 32768) := by
  have ht : truncQ ((1 : ℚ) * 32768) = 32768 := by
    unfold truncQ
    rw [if_pos (by norm_num)]
    norm_num
  have h1 : floatToPcm16 1 = -32768 := by
    unfold floatToPcm16
    rw [ht]
    decide
  rw [h1]
  unfold pcm16ToFloat
  norm_num

/-- C7 (confirmed): the float → PCM16 conversion is truncation composed
with reduction modulo 2^16 into the signed range, with no saturation:
the result is always congruent modulo 65536 to the truncation of
`x * 32768` and lies in `[-32768, 32767]`; in particular `x = 1` wraps to
-32768, `x = 2` wraps all the way to 0, and `x = 3/2` wraps to -16384 —
not the saturated value 32767. -/
theorem C7_wraparound :
    (∀ x : ℚ, floatToPcm16 x % 65536 = truncQ (x * 32768) % 65536
        ∧ -32768 ≤ floatToPcm16 x ∧ floatToPcm16 x ≤ 32767)
    ∧ floatToPcm16 1 = -32768
    ∧ floatToPcm16 2 = 0
    ∧ floatToPcm16 (3 / 2) = -16384 := by
  refine ⟨fun x => ⟨wrap16_emod _, (wrap16_bounds _).1, (wrap16_bounds _).2⟩, ?_, ?_, ?_⟩
  · have ht : truncQ ((1 : ℚ) * 32768) = 32768 := by
      unfold truncQ
      rw [if_pos (by norm_num)]
      norm_num
    unfold floatToPcm16
    rw [ht]
    decide
  · have ht : truncQ ((2 : ℚ) * 32768) = 65536 := by
      unfold truncQ
      rw [if_pos (by norm_num)]
      norm_num
    unfold floatToPcm16
    rw [ht]
    decide
  · have ht : truncQ ((3 / 2 : ℚ) * 32768) = 49152 := by
      unfold truncQ
      rw [if_pos (by norm_num)]
      norm_num
    unfold floatToPcm16
    rw [ht]
    decide

end LiveAudio

namespace LiveAudio

/-! ### Playback scheduler theorems -/

theorem noUnderrun_starts : ∀ (clock : ℚ) (xs : List (ℚ × ℚ)),
    noUnderrun clock xs = true →
    (schedule clock xs).map Prod.fst = gaplessStarts clock (xs.map Prod.snd)
  | _, [], _ => rfl
  | clock, (t, d) :: rest, h => by
      simp only [noUnderrun, Bool.and_eq_true, decide_eq_true_eq] at h
      have hmax : max clock t = clock := max_eq_left h.1
      simp only [schedule, enqueueClock, List.map_cons, gaplessStarts, hmax]
      exact congrArg (List.cons clock) (noUnderrun_starts (clock + d) rest h.2)

theorem schedule_start_ge : ∀ (clock : ℚ) (xs : List (ℚ × ℚ)),
    (∀ p ∈ xs, 0 ≤ p.2) → ∀ b ∈ schedule clock xs, clock ≤ b.1
  | _, [], _, b, hb => by simp [schedule] at hb
  | clock, (t, d) :: rest, hd, b, hb => by
      simp only [schedule, List.mem_cons] at hb
      rcases hb with rfl | hb
      · exact le_max_left _ _
      · have h0 : (0 : ℚ) ≤ d := hd (t, d) (List.mem_cons_self _ _)
        have htail := schedule_start_ge (enqueueClock clock t d) rest
          (fun p hp => hd p (List.mem_cons_of_mem _ hp)) b hb
        have hstep : clock ≤ enqueueClock clock t d := by
          have := le_max_left clock t
          unfold enqueueClock
          linarith
        linarith

theorem schedule_pairwise : ∀ (clock : ℚ) (xs : List (ℚ × ℚ)),
    (∀ p ∈ xs, 0 ≤ p.2) →
    List.Pairwise (fun a b : ℚ × ℚ => a.1 + a.2 ≤ b.1) (schedule clock xs)
  | _, [], _ => List.Pairwise.nil
  | clock, (t, d) :: rest, hd => by
      simp only [schedule, List.pairwise_cons]
      refine ⟨fun b hb => ?_, schedule_pairwise (enqueueClock clock t d) rest
        (fun p hp => hd p (List.mem_cons_of_mem _ hp))⟩
      have := schedule_start_ge (enqueueClock clock t d) rest
        (fun p hp => hd p (List.mem_cons_of_mem _ hp)) b hb
      simpa [enqueueClock] using this

/-- C1 (amended): provided every buffer duration is nonnegative and,
from the second enqueue on, the output device clock has not overtaken the
scheduled clock (no underrun), the i-th scheduled start time equals the
first buffer's start plus the sum of the previous durations, no two
scheduled buffers overlap in playback time, and every single enqueue
moves the playback clock forward, never backward. (Without the
no-underrun hypothesis the exact-partial-sum part fails, because
`nextStartTime = max(nextStartTime, currentTime)` jumps the schedule
forward when a chunk arrives late; see the counterexample.) -/
theorem C1_gapless_fifo_amended (c t1 d1 : ℚ) (rest : List (ℚ × ℚ))
    (hd1 : 0 ≤ d1) (hd : ∀ p ∈ rest, 0 ≤ p.2)
    (hnu : noUnderrun (enqueueClock c t1 d1) rest = true) :
    ((schedule c ((t1, d1) :: rest)).map Prod.fst
        = gaplessStarts (max c t1) (d1 :: rest.map Prod.snd))
    ∧ List.Pairwise (fun a b : ℚ × ℚ => a.1 + a.2 ≤ b.1) (schedule c ((t1, d1) :: rest))
    ∧ (∀ clock t d : ℚ, 0 ≤ d → clock ≤ enqueueClock clock t d) := by
  refine ⟨?_, ?_, ?_⟩
  · simp only [schedule, List.map_cons, gaplessStarts]
    exact congrArg (List.cons (max c t1)) (by
      have h := noUnderrun_starts (enqueueClock c t1 d1) rest hnu
      simpa [enqueueClock] using h)
  · refine schedule_pairwise c ((t1, d1) :: rest) ?_
    intro p hp
    rcases List.mem_cons.mp hp with rfl | hp
    · exact hd1
    · exact hd p hp
  · intro clock t d h0
    have := le_max_left clock t
    unfold enqueueClock
    linarith

/-- C1 witness: two chunks of durations 1 and 2 enqueued back to back
with the device clock at 0. -/
theorem C1_gapless_fifo_witness :
    ((0 : ℚ) ≤ 1)
    ∧ (∀ p ∈ [((0 : ℚ), (2 : ℚ))], 0 ≤ p.2)
    ∧ (noUnderrun (enqueueClock 0 0 1) [((0 : ℚ), (2 : ℚ))] = true)
    ∧ (((schedule 0 (((0 : ℚ), (1 : ℚ)) :: [((0 : ℚ), (2 : ℚ))])).map Prod.fst
          = gaplessStarts (max 0 0) ((1 : ℚ) :: ([((0 : ℚ), (2 : ℚ))]).map Prod.snd))
        ∧ List.Pairwise (fun a b : ℚ × ℚ => a.1 + a.2 ≤ b.1)
            (schedule 0 (((0 : ℚ), (1 : ℚ)) :: [((0 : ℚ), (2 : ℚ))]))
        ∧ (∀ clock t d : ℚ, 0 ≤ d → clock ≤ enqueueClock clock t d)) :=
  ⟨by norm_num, by norm_num, by norm_num [noUnderrun, enqueueClock],
   C1_gapless_fifo_amended 0 0 1 [((0 : ℚ), (2 : ℚ))] (by norm_num) (by norm_num)
     (by norm_num [noUnderrun, enqueueClock])⟩

/-- C1 counterexample: two chunks of duration 1, the first enqueued at
device time 0 and the second at device time 5 (after playback has
drained). The claim as stated predicts the second start at 0 + 1 = 1
relative to the first, but the code schedules it at
`max(clock, currentTime) = 5`. -/
theorem C1_counterexample :
    (schedule 0 [((0 : ℚ), (1 : ℚ)), ((5 : ℚ), (1 : ℚ))]).map Prod.fst
      ≠ gaplessStarts (max 0 0) [(1 : ℚ), (1 : ℚ)] := by
  intro hcontra
  have h2 : max ((0 : ℚ) + 1) 5 = 5 := max_eq_right (by norm_num)
  simp only [schedule, enqueueClock, gaplessStarts, List.map_cons, List.map_nil,
    max_self, zero_add, h2, List.cons.injEq] at hcontra
  norm_num at hcontra

end LiveAudio

namespace LiveAudio

/-! ### Session lifecycle theorems -/

/-- C2 counterexample: the claim orders the startup acquisitions as
output context first, input context second. Run startup from `Idle` in
an environment where creating the output (24 kHz) context fails and
everything else succeeds: were the output context really acquired first,
this would be a failure at step 1 and exactly 0 resources would be
released; the code in fact releases one resource, the already-created
input (16 kHz) context, which is therefore acquired before the output
context. -/
theorem C2_counterexample :
    ((startConversation LiveState.idle envFail2).2.2 = [TeardownAct.closeInputCtx])
    ∧ (startConversation LiveState.idle envFail2).2.2 ≠ ([] : List TeardownAct) :=
  ⟨by decide, by decide⟩

/-- C2 (amended): the startup sequence acquires, in order, the input
(16 kHz capture) context, the output (24 kHz playback) context, the
microphone stream, and the transport session. If acquisition fails at
step k, exactly the k-1 resources acquired before the failure are
released (none for k = 1; input context for k = 2; input and output
contexts for k = 3; microphone tracks and both contexts for k = 4), the
failure is surfaced as exactly one reported error, and the session ends
`Idle` with no partially-started state observable. -/
theorem C2_startup_cleanup_amended :
    ((startConversation LiveState.idle envFail1).2 = (1, ([] : List TeardownAct)))
    ∧ ((startConversation LiveState.idle envFail2).2 = (1, [TeardownAct.closeInputCtx]))
    ∧ ((startConversation LiveState.idle envFail3).2
        = (1, [TeardownAct.closeInputCtx, TeardownAct.closeOutputCtx]))
    ∧ ((startConversation LiveState.idle envFail4).2
        = (1, [TeardownAct.stopMicTracks, TeardownAct.closeInputCtx, TeardownAct.closeOutputCtx]))
    ∧ isIdle (startConversation LiveState.idle envFail1).1 = true
    ∧ isIdle (startConversation LiveState.idle envFail2).1 = true
    ∧ isIdle (startConversation LiveState.idle envFail3).1 = true
    ∧ isIdle (startConversation LiveState.idle envFail4).1 = true := by
  refine ⟨?_, ?_, ?_, ?_, ?_, ?_, ?_, ?_⟩ <;> decide

theorem closeCtx_closeCtx (c : CtxSt) : closeCtx (closeCtx c) = closeCtx c := by
  cases c <;> rfl

/-- C8 (confirmed): teardown is idempotent. Calling stop on the state a
first stop produced changes nothing and performs no release action at
all — every guard (`sessionRef`, `processorRef`, the media-stream and
microphone refs, the two contexts' `state !== 'closed'` checks, the
source set) is already false — and the state after the first stop is
already `Idle` (not live, not connecting). -/
theorem C8_stop_idempotent (s : LiveState) :
    stopConversation (stopConversation s).1 = ((stopConversation s).1, ([] : List TeardownAct))
    ∧ (stopConversation s).1.isLive = false
    ∧ (stopConversation s).1.isConnecting = false := by
  refine ⟨?_, rfl, rfl⟩
  cases s with
  | mk session processor mediaSource micStream inputCtx outputCtx sources nst live conn tr ci co =>
      cases inputCtx <;> cases outputCtx <;> simp [stopConversation, closeCtx]

/-- C10 counterexample: stop does not reset the transcript. Stopping a
live session whose transcript log holds one finalized turn and whose
fragment buffers are nonempty leaves both the log and the buffers
exactly as they were, contradicting the claim that every stop resets the
transcript (log and fragment buffers). -/
theorem C10_counterexample :
    ((stopConversation exLiveState).1.transcriptions = [("hi", "hello")])
    ∧ (stopConversation exLiveState).1.transcriptions ≠ ([] : List (String × String))
    ∧ ((stopConversation exLiveState).1.curInput = "a")
    ∧ (stopConversation exLiveState).1.curInput ≠ "" :=
  ⟨rfl, by decide, rfl, by decide⟩

/-- C10 (amended): every stop resets the connection state (not live, not
connecting), the playback clock (0) and the active source set (empty),
but leaves the transcript log and the fragment buffers untouched; those
are reset at the beginning of the next start (and the fragment buffers
are fresh per conversation attempt), so no transcript state flows into a
new conversation. -/
theorem C10_reset_amended (s : LiveState) (env : StartEnv) :
    ((stopConversation s).1.isLive = false)
    ∧ ((stopConversation s).1.isConnecting = false)
    ∧ ((stopConversation s).1.nextStartTime = 0)
    ∧ ((stopConversation s).1.sources = [])
    ∧ ((stopConversation s).1.transcriptions = s.transcriptions)
    ∧ ((stopConversation s).1.curInput = s.curInput)
    ∧ ((stopConversation s).1.curOutput = s.curOutput)
    ∧ ((startConversation (stopConversation s).1 env).1.transcriptions = [])
    ∧ ((startConversation (stopConversation s).1 env).1.curInput = "")
    ∧ ((startConversation (stopConversation s).1 env).1.curOutput = "") := by
  refine ⟨rfl, rfl, rfl, rfl, rfl, rfl, rfl, ?_, ?_, ?_⟩ <;>
    · rcases env with ⟨i, o, m, c⟩
      rcases i <;> rcases o <;> rcases m <;> rcases c <;>
        simp [startConversation, stopConversation]

/-! ### Message handler theorems -/

/-- C4 (confirmed): a message carrying only the interruption marker
stops every currently registered playback source (the returned stop
trace is exactly the active set), clears the set, resets the clock to 0,
and changes nothing else: the resulting state is the input state with
only `sources` and `nextStartTime` replaced, so the connection flags
(`isLive` stays as it was — the session remains live), the capture and
transport refs, the transcript log and the fragment buffers are all
untouched. -/
theorem C4_interrupt_frame (s : LiveState) (t : ℚ) (newId : Nat) :
    (handleMessage s interruptOnlyMsg t newId
      = ({ s with sources := [], nextStartTime := 0 }, s.sources, false))
    ∧ (handleMessage s interruptOnlyMsg t newId).1.isLive = s.isLive :=
  ⟨rfl, rfl⟩

end LiveAudio

namespace LiveAudio

theorem handleMessage_transcript (s : LiveState) (m : ServerMsg) (t : ℚ) (newId : Nat) :
    ((handleMessage s m t newId).1.transcriptions = (applyTranscript s m).transcriptions)
    ∧ ((handleMessage s m t newId).1.curInput = (applyTranscript s m).curInput)
    ∧ ((handleMessage s m t newId).1.curOutput = (applyTranscript s m).curOutput) := by
  rcases m with ⟨ot, it, tc, ad, intr⟩
  rcases ad with _ | payload
  · rcases intr <;>
      simp [handleMessage, interruptedStep, flush]
  · by_cases hctx : (applyTranscript s ⟨ot, it, tc, some payload, intr⟩).outputCtx ≠ CtxSt.absent
    · rcases hb : b64decode payload with _ | bytes
      · rcases intr <;>
          simp [handleMessage, interruptedStep, flush, bumpClock, hctx, hb]
      · by_cases hlen : bytes.length % 2 = 0
        · rcases intr <;>
            simp [handleMessage, interruptedStep, flush, bumpClock, addSource, hctx, hb, hlen]
        · rcases intr <;>
            simp [handleMessage, interruptedStep, flush, bumpClock, addSource, hctx, hb, hlen]
    · rcases intr <;>
        simp [handleMessage, interruptedStep, flush, hctx]

theorem applyTranscript_turnComplete (s : LiveState) (m : ServerMsg)
    (h : m.turnComplete = true) :
    ((applyTranscript s m).transcriptions
      = s.transcriptions ++ [(s.curInput ++ m.inputTranscription.getD "",
          s.curOutput ++ m.outputTranscription.getD "")])
    ∧ (applyTranscript s m).curInput = "" ∧ (applyTranscript s m).curOutput = "" := by
  unfold applyTranscript
  rw [h]
  cases m.outputTranscription <;> cases m.inputTranscription <;>
    simp [Option.getD, String.append_empty]

/-- C5 (confirmed): for every message carrying the turn-completion
marker, exactly one transcript turn is appended whose user and model
texts are exactly the accumulated fragment buffers (including any
fragments delivered in the same message, which the handler appends
before acting on the marker), and both fragment buffers are cleared to
the empty string. When nothing was accumulated and the message carries
no fragments, the appended turn therefore has empty-string fields. -/
theorem C5_turn_complete (s : LiveState) (m : ServerMsg) (t : ℚ) (newId : Nat)
    (h : m.turnComplete = true) :
    ((handleMessage s m t newId).1.transcriptions
      = s.transcriptions ++ [(s.curInput ++ m.inputTranscription.getD "",
          s.curOutput ++ m.outputTranscription.getD "")])
    ∧ (handleMessage s m t newId).1.curInput = ""
    ∧ (handleMessage s m t newId).1.curOutput = "" := by
  obtain ⟨h1, h2, h3⟩ := handleMessage_transcript s m t newId
  obtain ⟨g1, g2, g3⟩ := applyTranscript_turnComplete s m h
  exact ⟨h1.trans g1, h2.trans g2, h3.trans g3⟩

/-- C5 witness: a turn-completion message carrying fragments "U" and
"M", handled in a live state whose buffers already hold "a" and "b". -/
theorem C5_turn_complete_witness :
    (msgTurn.turnComplete = true)
    ∧ (((handleMessage exLiveState msgTurn 0 0).1.transcriptions
        = exLiveState.transcriptions ++ [(exLiveState.curInput ++ msgTurn.inputTranscription.getD "",
            exLiveState.curOutput ++ msgTurn.outputTranscription.getD "")])
      ∧ (handleMessage exLiveState msgTurn 0 0).1.curInput = ""
      ∧ (handleMessage exLiveState msgTurn 0 0).1.curOutput = "") :=
  ⟨rfl, C5_turn_complete exLiveState msgTurn 0 0 rfl⟩

theorem applyTranscript_frame (s : LiveState) (m : ServerMsg) :
    (applyTranscript s m).session = s.session
    ∧ (applyTranscript s m).processor = s.processor
    ∧ (applyTranscript s m).mediaSource = s.mediaSource
    ∧ (applyTranscript s m).micStream = s.micStream
    ∧ (applyTranscript s m).inputCtx = s.inputCtx
    ∧ (applyTranscript s m).outputCtx = s.outputCtx
    ∧ (applyTranscript s m).sources = s.sources
    ∧ (applyTranscript s m).nextStartTime = s.nextStartTime
    ∧ (applyTranscript s m).isLive = s.isLive
    ∧ (applyTranscript s m).isConnecting = s.isConnecting := by
  rcases m with ⟨ot, it, tc, ad, intr⟩
  rcases ot with _ | f <;> rcases it with _ | g <;> rcases tc <;>
    simp [applyTranscript]

/-- C9 (confirmed): a message whose audio payload fails base64 decoding
is dropped in isolation. The `atob` exception aborts the handler after
the transcription branches and the clock bump of line 535, so the
result is exactly the transcript-updated state with
`nextStartTime = max(nextStartTime, currentTime)`: no source is
scheduled or stopped, no teardown happens (`isLive`, the source set and
the transport ref are unchanged — the session remains live), and since
the handler keeps no other state, subsequent messages are processed
normally. -/
theorem C9_decode_isolation (s : LiveState) (m : ServerMsg) (t : ℚ) (newId : Nat)
    (p : List Nat) (hp : m.audioData = some p) (hbad : b64decode p = none)
    (hctx : s.outputCtx ≠ CtxSt.absent) :
    (handleMessage s m t newId = (bumpClock (applyTranscript s m) t, [], true))
    ∧ (handleMessage s m t newId).1.isLive = s.isLive
    ∧ (handleMessage s m t newId).1.sources = s.sources
    ∧ (handleMessage s m t newId).1.session = s.session := by
  have hframe := applyTranscript_frame s m
  have hctx2 : (applyTranscript s m).outputCtx ≠ CtxSt.absent := by
    rw [hframe.2.2.2.2.2.1]
    exact hctx
  have hmain : handleMessage s m t newId
      = (bumpClock (applyTranscript s m) t, [], true) := by
    simp only [handleMessage, hp]
    rw [if_pos hctx2, hbad]
  refine ⟨hmain, ?_, ?_, ?_⟩ <;> rw [hmain] <;> unfold bumpClock
  · exact hframe.2.2.2.2.2.2.2.2.1
  · exact hframe.2.2.2.2.2.2.1
  · exact hframe.1

/-- C9 witness: a malformed one-symbol payload handled in a live state;
the interruption marker in the same message is skipped by the thrown
exception and no source is stopped. -/
theorem C9_decode_isolation_witness :
    (msgBadAudio.audioData = some [1])
    ∧ (b64decode [1] = none)
    ∧ (exLiveState.outputCtx ≠ CtxSt.absent)
    ∧ ((handleMessage exLiveState msgBadAudio 7 3
        = (bumpClock (applyTranscript exLiveState msgBadAudio) 7, [], true))
      ∧ (handleMessage exLiveState msgBadAudio 7 3).1.isLive = exLiveState.isLive
      ∧ (handleMessage exLiveState msgBadAudio 7 3).1.sources = exLiveState.sources
      ∧ (handleMessage exLiveState msgBadAudio 7 3).1.session = exLiveState.session) :=
  ⟨rfl, rfl, by decide, C9_decode_isolation exLiveState msgBadAudio 7 3 [1] rfl rfl (by decide)⟩

/-- C3 (confirmed): the flush is total in its postcondition. In all
three forms it takes in the code — the extracted `flush`, the
interruption branch of `onmessage` (whenever the handler reaches it
without throwing), and the flush performed inside `stopConversation` —
the resulting active-source set is empty and the playback clock is 0,
regardless of how many sources were active or how far they had
progressed. -/
theorem C3_flush_total :
    (∀ s : LiveState, (flush s).1.sources = [] ∧ (flush s).1.nextStartTime = 0)
    ∧ (∀ s : LiveState,
        (stopConversation s).1.sources = [] ∧ (stopConversation s).1.nextStartTime = 0)
    ∧ (∀ (s : LiveState) (m : ServerMsg) (t : ℚ) (newId : Nat),
        m.interrupted = true → (handleMessage s m t newId).2.2 = false →
        (handleMessage s m t newId).1.sources = []
          ∧ (handleMessage s m t newId).1.nextStartTime = 0) := by
  refine ⟨fun s => ⟨rfl, rfl⟩, fun s => ⟨rfl, rfl⟩, ?_⟩
  intro s m t newId hint hok
  rcases m with ⟨ot, it, tc, ad, intr⟩
  subst hint
  rcases ad with _ | payload
  · simp [handleMessage, interruptedStep, flush]
  · by_cases hctx : (applyTranscript s ⟨ot, it, tc, some payload, true⟩).outputCtx ≠ CtxSt.absent
    · rcases hb : b64decode payload with _ | bytes
      · simp [handleMessage, hctx, hb] at hok
      · by_cases hlen : bytes.length % 2 = 0
        · simp [handleMessage, interruptedStep, flush, bumpClock, addSource, hctx, hb, hlen]
        · simp [handleMessage, hctx, hb, hlen] at hok
    · simp [handleMessage, interruptedStep, flush, hctx]

/-- C3 witness: an interruption-only message handled in a live state
with one active source and a nonzero clock. -/
theorem C3_flush_witness :
    (interruptOnlyMsg.interrupted = true)
    ∧ ((handleMessage exLiveState interruptOnlyMsg 3 9).2.2 = false)
    ∧ ((handleMessage exLiveState interruptOnlyMsg 3 9).1.sources = []
        ∧ (handleMessage exLiveState interruptOnlyMsg 3 9).1.nextStartTime = 0) :=
  ⟨rfl, rfl, C3_flush_total.2.2 exLiveState interruptOnlyMsg 3 9 rfl rfl⟩

end LiveAudio
